import Mathlib

/-!
Shallow embedding of the golden-dataset regression harness
(`golden_dataset.py`) of the fonemas repository.

Dictionaries from the Python source are modelled as association lists
(`List (String × _)`) looked up with `List.lookup`; a Python `KeyError`
is modelled as `Except.error k` where `k` is the missing key.  The
transcription engine (the external `Transcription` class) is a parameter:
a function `String → Except String TranscriptionValue`, an `Except.error`
standing for a raised exception.
-/

namespace Fonemas

/-- Decidable equality of `Except` results, used to evaluate the model
on concrete inputs. -/
instance {ε α : Type} [DecidableEq ε] [DecidableEq α] : DecidableEq (Except ε α) :=
  fun a b =>
    match a, b with
    | Except.ok x, Except.ok y =>
      if h : x = y then isTrue (by rw [h]) else isFalse (fun c => h (Except.ok.inj c))
    | Except.error x, Except.error y =>
      if h : x = y then isTrue (by rw [h]) else isFalse (fun c => h (Except.error.inj c))
    | Except.ok _, Except.error _ => isFalse (fun c => Except.noConfusion c)
    | Except.error _, Except.ok _ => isFalse (fun c => Except.noConfusion c)

/-- One linguistic layer of a transcription: the attributes
`words` and `syllables` read off the engine's section object
(`t.phonology.words`, `t.phonology.syllables`, …). -/
structure SectionResult where
  words : List String
  syllables : List String
deriving DecidableEq, Repr

/-- The three section objects the engine exposes on a successful
transcription (`t.phonology`, `t.phonetics`, `t.sampa`). -/
structure TranscriptionValue where
  phonology : SectionResult
  phonetics : SectionResult
  sampa : SectionResult
deriving DecidableEq, Repr

/-- A section dictionary: field name → sequence of strings
(the inner dicts built by `transcribe_sentence`). -/
abbrev SectionData := List (String × List String)

/-- A transcription-result dictionary: section name → section dictionary.
The `"input"` key of the Python dict is kept separately by the harness
model (it is never consulted by `compare_results`, which looks up only
the three section names). -/
abbrev TranscriptionDict := List (String × SectionData)

/-- Python dict subscript `d[k]`: the value when the key is present,
`KeyError` (modelled as `Except.error k`) when it is absent. -/
def dictGet {α : Type} (d : List (String × α)) (k : String) : Except String α :=
  match d.lookup k with
  | some v => Except.ok v
  | none => Except.error k

/-- The fixed section names iterated by `compare_results`
(line 127 of `golden_dataset.py`). -/
def sectionNames : List String := ["phonology", "phonetics", "sampa"]

/-- The two field keys compared per section (line 133). -/
def fieldKeys : List String := ["words", "syllables"]

/-- One entry of the `differences` dict built by `compare_results`:
either the section-missing record `{"error": ...}` or the dict of
per-field `{"expected": ..., "actual": ...}` records. -/
inductive SectionDiff where
  | missingSec (msg : String)
  | fieldDiffs (diffs : List (String × List String × List String))
deriving DecidableEq, Repr

/-- The `differences` mapping returned by `compare_results`:
section name → section record, in insertion order. -/
abbrev DiffMap := List (String × SectionDiff)

/-- Inner loop of `compare_results` over `['words', 'syllables']`
(lines 132–141): for each key, look up `expected[section][key]` and
`actual[section][key]` (a missing key raises `KeyError`) and record the
pair when the two sequences differ. -/
def compareFields (expSec actualSec : SectionData) :
    List String → Except String (List (String × List String × List String))
  | [] => Except.ok []
  | k :: ks =>
    match dictGet expSec k with
    | Except.error e => Except.error e
    | Except.ok ev =>
      match dictGet actualSec k with
      | Except.error e => Except.error e
      | Except.ok av =>
        match compareFields expSec actualSec ks with
        | Except.error e => Except.error e
        | Except.ok rest =>
          if ev ≠ av then Except.ok ((k, ev, av) :: rest) else Except.ok rest

/-- Outer loop of `compare_results` over the three section names
(lines 127–144): a section absent from `actual` yields the
section-missing record and skips field comparison; otherwise
`expected[section]` is looked up (raising `KeyError` when absent) and
the fields are compared; a non-empty per-section record is added to the
`differences` mapping. -/
def compareGo (expected actual : TranscriptionDict) :
    List String → Except String DiffMap
  | [] => Except.ok []
  | s :: ss =>
    match actual.lookup s with
    | none =>
      match compareGo expected actual ss with
      | Except.error e => Except.error e
      | Except.ok rest =>
        Except.ok ((s, SectionDiff.missingSec "Section missing in actual output") :: rest)
    | some actualSec =>
      match dictGet expected s with
      | Except.error e => Except.error e
      | Except.ok expSec =>
        match compareFields expSec actualSec fieldKeys with
        | Except.error e => Except.error e
        | Except.ok fds =>
          match compareGo expected actual ss with
          | Except.error e => Except.error e
          | Except.ok rest =>
            if fds.isEmpty then Except.ok rest
            else Except.ok ((s, SectionDiff.fieldDiffs fds) :: rest)

/-- `GoldenDataset.compare_results` (lines 117–146): returns the
`differences` dict; an uncaught `KeyError` is the `Except.error` case. -/
def compare_results (expected actual : TranscriptionDict) : Except String DiffMap :=
  compareGo expected actual sectionNames

/-- The dict literal `{"words": ..., "syllables": ...}` built by
`transcribe_sentence` for one section (lines 56–59). -/
def SectionResult.toDict (s : SectionResult) : SectionData :=
  [("words", s.words), ("syllables", s.syllables)]

/-- The three-section dict built by `transcribe_sentence`
(lines 54–68, omitting the `"input"` key, which the comparator and
the test loop never read from the result dict). -/
def TranscriptionValue.toDict (t : TranscriptionValue) : TranscriptionDict :=
  [("phonology", t.phonology.toDict),
   ("phonetics", t.phonetics.toDict),
   ("sampa", t.sampa.toDict)]

/-- `GoldenDataset.transcribe_sentence` (lines 45–68): call the engine
once and reshape its section objects into the canonical dict; an engine
exception propagates. -/
def transcribe_sentence (engine : String → Except String TranscriptionValue)
    (s : String) : Except String TranscriptionDict :=
  match engine s with
  | Except.error e => Except.error e
  | Except.ok t => Except.ok t.toDict

/-- One element of the golden dataset (the dicts appended by
`generate_golden_data`, lines 80–90): either the full transcription
result or the captured error record `{"input": ..., "error": ...}`. -/
inductive GoldenEntry where
  | success (input : String) (result : TranscriptionDict)
  | genError (input : String) (message : String)
deriving DecidableEq, Repr

/-- The `"input"` field of a golden entry. -/
def GoldenEntry.input : GoldenEntry → String
  | GoldenEntry.success s _ => s
  | GoldenEntry.genError s _ => s

/-- Whether the entry is the error variant (the `"error" in expected`
test of line 174). -/
def GoldenEntry.isGenError : GoldenEntry → Bool
  | GoldenEntry.success _ _ => false
  | GoldenEntry.genError _ _ => true

/-- The body of the per-sentence loop of `generate_golden_data`
(lines 80–90): transcribe, catching an engine exception into the
error-variant record. -/
def generateEntry (engine : String → Except String TranscriptionValue)
    (s : String) : GoldenEntry :=
  match transcribe_sentence engine s with
  | Except.ok r => GoldenEntry.success s r
  | Except.error e => GoldenEntry.genError s e

/-- `GoldenDataset.generate_golden_data` (lines 70–93): one entry
appended per sentence, in corpus order. -/
def generate_golden_data (engine : String → Except String TranscriptionValue)
    (sentences : List String) : List GoldenEntry :=
  sentences.map (generateEntry engine)

/-- One element of the `results["failures"]` list of `run_tests`:
either the record with a `differences` dict (lines 189–193) or the one
with an `error` string (lines 204–208). -/
inductive FailureRecord where
  | diffFailure (index : Nat) (sentence : String) (differences : DiffMap)
  | runError (index : Nat) (sentence : String) (message : String)
deriving DecidableEq, Repr

/-- The `results` dict built by `run_tests` (lines 160–166). -/
structure RunSummary where
  total : Nat
  passed : Nat
  failed : Nat
  errors : Nat
  failures : List FailureRecord
deriving DecidableEq, Repr

/-- The per-entry loop of `run_tests` (lines 170–211), with the
1-based `enumerate` index and the mutated `results` accumulator made
explicit: an error-variant golden entry only bumps `errors`; otherwise
the sentence is re-transcribed and compared, an exception from either
step (engine error or `KeyError` from `compare_results`) is caught and
counted as an error, a non-empty `differences` dict counts as failed,
an empty one as passed. -/
def runTestsGo (engine : String → Except String TranscriptionValue) :
    Nat → List GoldenEntry → RunSummary → RunSummary
  | _, [], acc => acc
  | i, e :: es, acc =>
    match e with
    | GoldenEntry.genError _ _ =>
      runTestsGo engine (i + 1) es { acc with errors := acc.errors + 1 }
    | GoldenEntry.success sentence expectedResult =>
      match transcribe_sentence engine sentence with
      | Except.error msg =>
        runTestsGo engine (i + 1) es
          { acc with errors := acc.errors + 1,
                     failures := acc.failures ++ [FailureRecord.runError i sentence msg] }
      | Except.ok actual =>
        match compare_results expectedResult actual with
        | Except.error msg =>
          runTestsGo engine (i + 1) es
            { acc with errors := acc.errors + 1,
                       failures := acc.failures ++ [FailureRecord.runError i sentence msg] }
        | Except.ok diffs =>
          if diffs.isEmpty then
            runTestsGo engine (i + 1) es { acc with passed := acc.passed + 1 }
          else
            runTestsGo engine (i + 1) es
              { acc with failed := acc.failed + 1,
                         failures := acc.failures ++
                           [FailureRecord.diffFailure i sentence diffs] }

/-- `GoldenDataset.run_tests` (lines 148–213) on an already-loaded
golden dataset: `total` is set to the dataset length up front, the
other counters start at zero, and the loop runs from index 1. -/
def run_tests (engine : String → Except String TranscriptionValue)
    (golden : List GoldenEntry) : RunSummary :=
  runTestsGo engine 1 golden
    { total := golden.length, passed := 0, failed := 0, errors := 0, failures := [] }

/-- The outcome class of one golden entry under `run_tests`'s loop:
used to state counting invariants.  Error-variant entries never reach
the engine; successful entries are re-transcribed and compared exactly
as in the loop body. -/
inductive Outcome where
  | passed
  | failed
  | error
deriving DecidableEq, Repr

/-- Classifies one golden entry the way the `run_tests` loop does. -/
def entryOutcome (engine : String → Except String TranscriptionValue) :
    GoldenEntry → Outcome
  | GoldenEntry.genError _ _ => Outcome.error
  | GoldenEntry.success sentence expectedResult =>
    match transcribe_sentence engine sentence with
    | Except.error _ => Outcome.error
    | Except.ok actual =>
      match compare_results expectedResult actual with
      | Except.error _ => Outcome.error
      | Except.ok diffs => if diffs.isEmpty then Outcome.passed else Outcome.failed

/-- `GoldenDataset.print_test_summary` (lines 227–252), reduced to its
value-level behaviour: line 233 divides `passed` by `total`, raising
`ZeroDivisionError` when `total` is zero; otherwise the printing has no
effect on the returned exit code, which is `0` iff `failed == 0 and
errors == 0` (line 252). -/
def print_test_summary (results : RunSummary) : Except String Nat :=
  if results.total = 0 then Except.error "ZeroDivisionError"
  else if results.failed = 0 ∧ results.errors = 0 then Except.ok 0
  else Except.ok 1

/-- The `test` branch of `main` (lines 272–276): run the tests on the
loaded dataset and exit with the code computed by the summary printer;
`Except.error` models termination by an uncaught exception instead of a
normal `sys.exit`. -/
def test_command (engine : String → Except String TranscriptionValue)
    (golden : List GoldenEntry) : Except String Nat :=
  print_test_summary (run_tests engine golden)

/-- Python `line.strip()`: remove leading and trailing whitespace.
Modelled structurally over the string's character list (instead of
through `String.trim`, whose byte-position loops do not reduce in the
kernel) so that it can be evaluated on concrete corpora. -/
def pyStrip (s : String) : String :=
  ⟨((s.data.dropWhile Char.isWhitespace).reverse.dropWhile Char.isWhitespace).reverse⟩

/-- Python `line.startswith('#')` on an already stripped line: its
first character is the comment character. -/
def isCommentLine (s : String) : Bool :=
  s.data.head? == some '#'

/-- `GoldenDataset.read_corpus` (lines 34–43): strip each raw line and
append it unless it is empty or starts with the comment character. -/
def read_corpus (rawLines : List String) : List String :=
  rawLines.foldl
    (fun sentences line =>
      let l := pyStrip line
      if l ≠ "" ∧ isCommentLine l = false then sentences ++ [l] else sentences)
    []

/-- Well-formedness of one section, relative to what `compare_results`
actually dereferences: whenever the section is present in `actual`, the
section must also be present in `expected` and both sides' section
dicts must contain both field keys. -/
def sectionOK (expected actual : TranscriptionDict) (s : String) : Prop :=
  ∀ secA, actual.lookup s = some secA →
    ∃ secE, expected.lookup s = some secE ∧
      (secE.lookup "words").isSome ∧ (secE.lookup "syllables").isSome ∧
      (secA.lookup "words").isSome ∧ (secA.lookup "syllables").isSome

/-- Whether an `Except` result is the success case. -/
def isOkB {α : Type} (r : Except String α) : Bool :=
  match r with
  | Except.ok _ => true
  | Except.error _ => false

/-- Everything `compare_results` reads from its `actual` argument about
one section: whether the section key is present, and, when it is, the
two field lookups. -/
def actualView (actual : TranscriptionDict) (s : String) :
    Option (Option (List String) × Option (List String)) :=
  (actual.lookup s).map (fun sec => (sec.lookup "words", sec.lookup "syllables"))

/-- An engine whose every call raises, for concrete evaluations. -/
def stubEngine : String → Except String TranscriptionValue :=
  fun _ => Except.error "engine unavailable"

/-- A concrete transcription value, for concrete evaluations. -/
def sampleValue : TranscriptionValue :=
  ⟨⟨["ola"], ["o", "la"]⟩, ⟨["fonema"], ["fo", "ne", "ma"]⟩, ⟨["adios"], ["a", "dios"]⟩⟩

/-- A second concrete transcription value. -/
def sampleValue2 : TranscriptionValue :=
  ⟨⟨["kasa"], ["ka", "sa"]⟩, ⟨["kasa"], ["ka", "sa"]⟩, ⟨["kasa"], ["ka", "sa"]⟩⟩

/-- An engine that always succeeds with `sampleValue`. -/
def sampleEngine : String → Except String TranscriptionValue :=
  fun _ => Except.ok sampleValue

/-- An engine that raises exactly on the sentence `"bad"`. -/
def mixedEngine : String → Except String TranscriptionValue :=
  fun s => if s = "bad" then Except.error "boom" else Except.ok sampleValue

end Fonemas

namespace Fonemas

/-- Helper: comparing the canonical dict of a transcription value with
itself yields the empty differences mapping. -/
theorem compare_toDict_self (t : TranscriptionValue) :
    compare_results t.toDict t.toDict = Except.ok [] := by
  simp [compare_results, compareGo, compareFields, dictGet, sectionNames, fieldKeys,
    TranscriptionValue.toDict, SectionResult.toDict, List.lookup]

/-- Helper: the loop of `run_tests` leaves `total` unchanged and adds to
each counter the number of entries whose outcome falls in that class. -/
theorem runTestsGo_spec (engine : String → Except String TranscriptionValue)
    (es : List GoldenEntry) : ∀ (i : Nat) (acc : RunSummary),
    (runTestsGo engine i es acc).total = acc.total ∧
    (runTestsGo engine i es acc).passed =
      acc.passed + es.countP (fun e => decide (entryOutcome engine e = Outcome.passed)) ∧
    (runTestsGo engine i es acc).failed =
      acc.failed + es.countP (fun e => decide (entryOutcome engine e = Outcome.failed)) ∧
    (runTestsGo engine i es acc).errors =
      acc.errors + es.countP (fun e => decide (entryOutcome engine e = Outcome.error)) := by
  induction es with
  | nil => intro i acc; simp [runTestsGo]
  | cons e es ih =>
    intro i acc
    cases e with
    | genError s m =>
      obtain ⟨h1, h2, h3, h4⟩ := ih (i + 1) { acc with errors := acc.errors + 1 }
      have he : entryOutcome engine (GoldenEntry.genError s m) = Outcome.error := rfl
      simp [runTestsGo, h1, h2, h3, h4, List.countP_cons, he] <;> omega
    | success s expectedResult =>
      cases htr : transcribe_sentence engine s with
      | error msg =>
        obtain ⟨h1, h2, h3, h4⟩ := ih (i + 1)
          { acc with errors := acc.errors + 1,
                     failures := acc.failures ++ [FailureRecord.runError i s msg] }
        have he : entryOutcome engine (GoldenEntry.success s expectedResult) =
            Outcome.error := by simp [entryOutcome, htr]
        simp [runTestsGo, htr, h1, h2, h3, h4, List.countP_cons, he] <;> omega
      | ok actual =>
        cases hc : compare_results expectedResult actual with
        | error msg =>
          obtain ⟨h1, h2, h3, h4⟩ := ih (i + 1)
            { acc with errors := acc.errors + 1,
                       failures := acc.failures ++ [FailureRecord.runError i s msg] }
          have he : entryOutcome engine (GoldenEntry.success s expectedResult) =
              Outcome.error := by simp [entryOutcome, htr, hc]
          simp [runTestsGo, htr, hc, h1, h2, h3, h4, List.countP_cons, he] <;> omega
        | ok diffs =>
          cases hd : diffs.isEmpty with
          | true =>
            obtain ⟨h1, h2, h3, h4⟩ := ih (i + 1) { acc with passed := acc.passed + 1 }
            have he : entryOutcome engine (GoldenEntry.success s expectedResult) =
                Outcome.passed := by simp [entryOutcome, htr, hc, hd]
            simp [runTestsGo, htr, hc, hd, h1, h2, h3, h4, List.countP_cons, he] <;> omega
          | false =>
            obtain ⟨h1, h2, h3, h4⟩ := ih (i + 1)
              { acc with failed := acc.failed + 1,
                         failures := acc.failures ++
                           [FailureRecord.diffFailure i s diffs] }
            have he : entryOutcome engine (GoldenEntry.success s expectedResult) =
                Outcome.failed := by simp [entryOutcome, htr, hc, hd]
            simp [runTestsGo, htr, hc, hd, h1, h2, h3, h4, List.countP_cons, he] <;> omega

/-- Helper: the three outcome classes partition the dataset. -/
theorem outcome_partition (engine : String → Except String TranscriptionValue)
    (l : List GoldenEntry) :
    l.countP (fun e => decide (entryOutcome engine e = Outcome.passed)) +
    l.countP (fun e => decide (entryOutcome engine e = Outcome.failed)) +
    l.countP (fun e => decide (entryOutcome engine e = Outcome.error)) = l.length := by
  induction l with
  | nil => simp
  | cons e l ih =>
    cases h : entryOutcome engine e <;> simp [List.countP_cons, h] <;> omega

/-- C3: for every golden dataset, the summary produced by `run_tests`
satisfies `total = passed + failed + errors`: each entry contributes to
exactly one of the three counts (its outcome class), and an entry whose
golden record is the error variant is classified as an error — not a
failure — by a rule that never consults the engine, i.e. the entry is
never transcribed. -/
theorem claim3_run_tests_partition (engine : String → Except String TranscriptionValue)
    (golden : List GoldenEntry) :
    (run_tests engine golden).total =
      (run_tests engine golden).passed + (run_tests engine golden).failed +
        (run_tests engine golden).errors ∧
    (run_tests engine golden).total = golden.length ∧
    (run_tests engine golden).passed =
      golden.countP (fun e => decide (entryOutcome engine e = Outcome.passed)) ∧
    (run_tests engine golden).failed =
      golden.countP (fun e => decide (entryOutcome engine e = Outcome.failed)) ∧
    (run_tests engine golden).errors =
      golden.countP (fun e => decide (entryOutcome engine e = Outcome.error)) ∧
    (∀ (engine2 : String → Except String TranscriptionValue) (s m : String),
      entryOutcome engine2 (GoldenEntry.genError s m) = Outcome.error) := by
  obtain ⟨h1, h2, h3, h4⟩ := runTestsGo_spec engine golden 1
    { total := golden.length, passed := 0, failed := 0, errors := 0, failures := [] }
  have ht : (run_tests engine golden).total = golden.length := by
    unfold run_tests; simpa using h1
  have hp : (run_tests engine golden).passed =
      golden.countP (fun e => decide (entryOutcome engine e = Outcome.passed)) := by
    unfold run_tests; simpa using h2
  have hf : (run_tests engine golden).failed =
      golden.countP (fun e => decide (entryOutcome engine e = Outcome.failed)) := by
    unfold run_tests; simpa using h3
  have he : (run_tests engine golden).errors =
      golden.countP (fun e => decide (entryOutcome engine e = Outcome.error)) := by
    unfold run_tests; simpa using h4
  refine ⟨?_, ht, hp, hf, he, fun _ _ _ => rfl⟩
  rw [ht, hp, hf, he]
  exact (outcome_partition engine golden).symm

/-- C8: on an empty loaded golden dataset the run produces
`total = 0`, `failed = 0`, `errors = 0`, and the summary printer hits
the unguarded division `passed/total` and raises `ZeroDivisionError`,
so the test command terminates with an uncaught exception instead of
exiting with status 0. -/
theorem claim8_empty_dataset (engine : String → Except String TranscriptionValue) :
    (run_tests engine []).total = 0 ∧
    (run_tests engine []).failed = 0 ∧
    (run_tests engine []).errors = 0 ∧
    print_test_summary (run_tests engine []) = Except.error "ZeroDivisionError" ∧
    test_command engine [] = Except.error "ZeroDivisionError" ∧
    test_command engine [] ≠ Except.ok 0 := by
  refine ⟨rfl, rfl, rfl, rfl, rfl, ?_⟩
  intro c
  exact Except.noConfusion ((rfl : test_command engine [] =
    Except.error "ZeroDivisionError") ▸ c)

/-- C2, counterexample to the claim as stated: the empty loaded dataset
has `failed = 0` and `errors = 0`, yet the process does not exit with
status 0 — the summary printer raises `ZeroDivisionError`. -/
theorem claim2_counterexample :
    (run_tests stubEngine []).failed = 0 ∧
    (run_tests stubEngine []).errors = 0 ∧
    test_command stubEngine [] = Except.error "ZeroDivisionError" ∧
    test_command stubEngine [] ≠ Except.ok 0 := by
  decide

/-- C2, amended: for every test run over a non-empty loaded golden
dataset, the exit status is 0 iff the summary has `failed == 0` and
`errors == 0`, and any other combination of counts exits with status 1;
the empty dataset instead dies with `ZeroDivisionError`. -/
theorem claim2_amended (engine : String → Except String TranscriptionValue)
    (golden : List GoldenEntry) (h : golden ≠ []) :
    (test_command engine golden = Except.ok 0 ↔
      (run_tests engine golden).failed = 0 ∧ (run_tests engine golden).errors = 0) ∧
    ((run_tests engine golden).failed ≠ 0 ∨ (run_tests engine golden).errors ≠ 0 →
      test_command engine golden = Except.ok 1) := by
  have ht : (run_tests engine golden).total = golden.length := by
    unfold run_tests
    simpa using (runTestsGo_spec engine golden 1
      { total := golden.length, passed := 0, failed := 0, errors := 0, failures := [] }).1
  have hnz : ¬ (run_tests engine golden).total = 0 := by
    rw [ht]
    intro c
    exact h (List.length_eq_zero.mp c)
  refine ⟨?_, ?_⟩
  · unfold test_command print_test_summary
    rw [if_neg hnz]
    split_ifs with hfe
    · simp [hfe]
    · simp [hfe]
  · intro hor
    unfold test_command print_test_summary
    rw [if_neg hnz, if_neg (by tauto)]

/-- C2, witness for the amended claim at a concrete non-empty dataset:
a single error-variant entry makes the run exit with status 1. -/
theorem claim2_witness :
    test_command stubEngine [GoldenEntry.genError "x" "boom"] = Except.ok 1 :=
  (claim2_amended stubEngine [GoldenEntry.genError "x" "boom"] (by decide)).2
    (by decide)

/-- C1, counterexample to the claim as stated: on a concrete pair of
equal transcription results, `compare_results` returns the *empty
mapping* (`Except.ok []`), not an absent value — the source has no
"absence" case at all, so the "no difference" outcome is represented
as an empty container, contrary to the claim. -/
theorem claim1_counterexample :
    compare_results sampleValue.toDict sampleValue.toDict = Except.ok [] := by
  decide

/-- C1, amended: when every section's `words` and `syllables` sequences
are equal, `compare_results` returns the empty mapping (not absence),
and emptiness of the returned mapping is the pass condition applied by
the test loop. -/
theorem claim1_amended (t u : TranscriptionValue)
    (h1 : t.phonology.words = u.phonology.words)
    (h2 : t.phonology.syllables = u.phonology.syllables)
    (h3 : t.phonetics.words = u.phonetics.words)
    (h4 : t.phonetics.syllables = u.phonetics.syllables)
    (h5 : t.sampa.words = u.sampa.words)
    (h6 : t.sampa.syllables = u.sampa.syllables) :
    compare_results t.toDict u.toDict = Except.ok [] ∧
    ∀ (engine : String → Except String TranscriptionValue) (s : String),
      engine s = Except.ok u →
      entryOutcome engine (GoldenEntry.success s t.toDict) = Outcome.passed := by
  have hc : compare_results t.toDict u.toDict = Except.ok [] := by
    simp [compare_results, compareGo, compareFields, dictGet, sectionNames, fieldKeys,
      TranscriptionValue.toDict, SectionResult.toDict, List.lookup, h1, h2, h3, h4, h5, h6]
  refine ⟨hc, ?_⟩
  intro engine s hes
  simp [entryOutcome, transcribe_sentence, hes, hc]

/-- Helper: the corpus-reading fold with an arbitrary accumulator. -/
theorem read_corpus_foldl_append (rawLines : List String) : ∀ (acc : List String),
    rawLines.foldl
      (fun sentences line =>
        let l := pyStrip line
        if l ≠ "" ∧ isCommentLine l = false then sentences ++ [l] else sentences) acc
    = acc ++ (rawLines.map pyStrip).filter
        (fun l => decide (l ≠ "" ∧ isCommentLine l = false)) := by
  induction rawLines with
  | nil => intro acc; simp
  | cons line rest ih =>
    intro acc
    simp only [List.foldl_cons, List.map_cons, List.filter_cons]
    by_cases h : pyStrip line ≠ "" ∧ isCommentLine (pyStrip line) = false
    · rw [ih]
      simp [h]
    · rw [ih]
      simp [h]

/-- C7: `read_corpus` returns exactly the stripped lines that are
non-empty and do not start with the comment character, in file order
and without deduplication; in particular the four-line corpus of the
claim yields exactly its two sentence lines. -/
theorem claim7_read_corpus (rawLines : List String) :
    read_corpus rawLines =
      (rawLines.map pyStrip).filter
        (fun l => decide (l ≠ "" ∧ isCommentLine l = false)) ∧
    read_corpus ["Hola.", "# comment", "", "Adiós"] = ["Hola.", "Adiós"] := by
  refine ⟨?_, ?_⟩
  · unfold read_corpus
    simpa using read_corpus_foldl_append rawLines []
  · decide

/-- Helper: the two Bool classes of a predicate partition a list. -/
theorem countP_bool_partition {α : Type} (p : α → Bool) (l : List α) :
    l.countP p + l.countP (fun a => !p a) = l.length := by
  induction l with
  | nil => simp
  | cons a l ih => cases h : p a <;> simp [List.countP_cons, h] <;> omega

/-- Helper: the input recorded in a generated entry is the sentence. -/
theorem generateEntry_input (engine : String → Except String TranscriptionValue)
    (s : String) : (generateEntry engine s).input = s := by
  unfold generateEntry
  cases transcribe_sentence engine s <;> rfl

/-- Helper: a generated entry is the error variant exactly when the
transcription of its sentence raised. -/
theorem generateEntry_isGenError (engine : String → Except String TranscriptionValue)
    (s : String) :
    (generateEntry engine s).isGenError = !isOkB (transcribe_sentence engine s) := by
  unfold generateEntry
  cases transcribe_sentence engine s <;> rfl

/-- C5: generation over N sentences yields exactly N entries in corpus
order (entry i's input is sentence i, and entry i is a function of
sentence i alone); the error-variant entries are exactly the sentences
whose transcription raised, so if exactly one sentence raises then
exactly one entry is the error variant and the other N−1 are full
results. -/
theorem claim5_generate (engine : String → Except String TranscriptionValue)
    (sentences : List String) :
    (generate_golden_data engine sentences).length = sentences.length ∧
    (generate_golden_data engine sentences).map GoldenEntry.input = sentences ∧
    (∀ i : Nat, (generate_golden_data engine sentences)[i]? =
      (sentences[i]?).map (generateEntry engine)) ∧
    (generate_golden_data engine sentences).countP GoldenEntry.isGenError =
      sentences.countP (fun s => !isOkB (transcribe_sentence engine s)) ∧
    (sentences.countP (fun s => !isOkB (transcribe_sentence engine s)) = 1 →
      (generate_golden_data engine sentences).countP GoldenEntry.isGenError = 1 ∧
      (generate_golden_data engine sentences).countP
        (fun e => !e.isGenError) = sentences.length - 1) := by
  have hlen : (generate_golden_data engine sentences).length = sentences.length := by
    simp [generate_golden_data]
  have hcount : (generate_golden_data engine sentences).countP GoldenEntry.isGenError =
      sentences.countP (fun s => !isOkB (transcribe_sentence engine s)) := by
    unfold generate_golden_data
    rw [List.countP_map]
    apply List.countP_congr
    intro s _
    simp [Function.comp, generateEntry_isGenError]
  refine ⟨hlen, ?_, ?_, hcount, ?_⟩
  · unfold generate_golden_data
    rw [List.map_map]
    have h : ∀ s ∈ sentences, (GoldenEntry.input ∘ generateEntry engine) s = s := by
      intro s _
      simp [Function.comp, generateEntry_input]
    rw [List.map_congr_left h]
    simp
  · intro i
    simp [generate_golden_data]
  · intro h1
    refine ⟨hcount.trans h1, ?_⟩
    have hsplit := countP_bool_partition GoldenEntry.isGenError
      (generate_golden_data engine sentences)
    rw [hlen, hcount, h1] at hsplit
    omega

/-- Helper: test-time outcome of a freshly generated entry, under the
same (pure, hence deterministic) engine: passed when the engine
succeeds on the sentence, error when it raises. -/
theorem entryOutcome_generateEntry (engine : String → Except String TranscriptionValue)
    (s : String) :
    entryOutcome engine (generateEntry engine s) =
      match engine s with
      | Except.ok _ => Outcome.passed
      | Except.error _ => Outcome.error := by
  cases he : engine s with
  | error m => simp [generateEntry, transcribe_sentence, entryOutcome, he]
  | ok t =>
    simp [generateEntry, transcribe_sentence, entryOutcome, he, compare_toDict_self t]

/-- Helper: outcome of a generated entry expressed through its variant. -/
theorem entryOutcome_generateEntry_variant
    (engine : String → Except String TranscriptionValue)
    (sentences : List String) (e : GoldenEntry)
    (he : e ∈ generate_golden_data engine sentences) :
    entryOutcome engine e =
      (if e.isGenError then Outcome.error else Outcome.passed) := by
  obtain ⟨s, _, rfl⟩ := List.mem_map.mp he
  rw [entryOutcome_generateEntry, generateEntry_isGenError]
  unfold transcribe_sentence isOkB
  cases engine s <;> rfl

/-- C6: round trip — generating a golden dataset and immediately
running the tests with the same deterministic engine yields
`failed = 0`; every entry without a captured generation error is
counted as passed, and the errors count is exactly the number of
error-variant entries. -/
theorem claim6_round_trip (engine : String → Except String TranscriptionValue)
    (sentences : List String) :
    (run_tests engine (generate_golden_data engine sentences)).failed = 0 ∧
    (∀ e ∈ generate_golden_data engine sentences,
      e.isGenError = false → entryOutcome engine e = Outcome.passed) ∧
    (run_tests engine (generate_golden_data engine sentences)).passed =
      (generate_golden_data engine sentences).countP (fun e => !e.isGenError) ∧
    (run_tests engine (generate_golden_data engine sentences)).errors =
      (generate_golden_data engine sentences).countP GoldenEntry.isGenError := by
  obtain ⟨h1, h2, h3, h4⟩ := runTestsGo_spec engine (generate_golden_data engine sentences) 1
    { total := (generate_golden_data engine sentences).length,
      passed := 0, failed := 0, errors := 0, failures := [] }
  have hmem := fun e he => entryOutcome_generateEntry_variant engine sentences e he
  refine ⟨?_, ?_, ?_, ?_⟩
  · unfold run_tests
    rw [h3]
    simp only [Nat.zero_add]
    apply List.countP_eq_zero.mpr
    intro e he
    rw [hmem e he]
    cases e.isGenError <;> simp
  · intro e he hne
    rw [hmem e he, hne]
    rfl
  · unfold run_tests
    rw [h2]
    simp only [Nat.zero_add]
    apply List.countP_congr
    intro e he
    rw [hmem e he]
    cases e.isGenError <;> simp
  · unfold run_tests
    rw [h4]
    simp only [Nat.zero_add]
    apply List.countP_congr
    intro e he
    rw [hmem e he]
    cases e.isGenError <;> simp

/-- C6, witness at a concrete engine and corpus: one good sentence and
one raising sentence give a round trip with zero failures, and the
good entry's outcome is passed. -/
theorem claim6_witness :
    (run_tests mixedEngine (generate_golden_data mixedEngine ["Hola.", "bad"])).failed = 0 ∧
    entryOutcome mixedEngine
      (GoldenEntry.success "Hola." sampleValue.toDict) = Outcome.passed :=
  ⟨(claim6_round_trip mixedEngine ["Hola.", "bad"]).1,
   (claim6_round_trip mixedEngine ["Hola.", "bad"]).2.1
     (GoldenEntry.success "Hola." sampleValue.toDict) (by decide) (by decide)⟩

/-- C5, witness at a concrete engine and corpus with exactly one
raising sentence: one error-variant entry, two full results. -/
theorem claim5_witness :
    List.countP (fun s => !isOkB (transcribe_sentence mixedEngine s))
      ["Hola.", "bad", "Adiós"] = 1 ∧
    (generate_golden_data mixedEngine ["Hola.", "bad", "Adiós"]).countP
      GoldenEntry.isGenError = 1 ∧
    (generate_golden_data mixedEngine ["Hola.", "bad", "Adiós"]).countP
      (fun e => !e.isGenError) = 2 :=
  ⟨by decide,
   ((claim5_generate mixedEngine ["Hola.", "bad", "Adiós"]).2.2.2.2 (by decide)).1,
   ((claim5_generate mixedEngine ["Hola.", "bad", "Adiós"]).2.2.2.2 (by decide)).2⟩

/-- C4: a pair of transcription results that differ only in the
syllables sequence of exactly one section produces a differences
mapping holding exactly that one section/field pair and nothing else
(one conjunct per section); and sequence comparison is exact and
order-sensitive: an actual words sequence that is a permutation of the
expected one but differently ordered registers as exactly a words
difference. -/
theorem claim4_diff_sensitivity (t u : TranscriptionValue) :
    ((t.phonology.words = u.phonology.words ∧
      t.phonology.syllables ≠ u.phonology.syllables ∧
      t.phonetics = u.phonetics ∧ t.sampa = u.sampa) →
      compare_results t.toDict u.toDict =
        Except.ok [("phonology", SectionDiff.fieldDiffs
          [("syllables", t.phonology.syllables, u.phonology.syllables)])]) ∧
    ((t.phonology = u.phonology ∧ t.phonetics.words = u.phonetics.words ∧
      t.phonetics.syllables ≠ u.phonetics.syllables ∧ t.sampa = u.sampa) →
      compare_results t.toDict u.toDict =
        Except.ok [("phonetics", SectionDiff.fieldDiffs
          [("syllables", t.phonetics.syllables, u.phonetics.syllables)])]) ∧
    ((t.phonology = u.phonology ∧ t.phonetics = u.phonetics ∧
      t.sampa.words = u.sampa.words ∧ t.sampa.syllables ≠ u.sampa.syllables) →
      compare_results t.toDict u.toDict =
        Except.ok [("sampa", SectionDiff.fieldDiffs
          [("syllables", t.sampa.syllables, u.sampa.syllables)])]) ∧
    ((t.phonology.words ≠ u.phonology.words ∧
      t.phonology.words.Perm u.phonology.words ∧
      t.phonology.syllables = u.phonology.syllables ∧
      t.phonetics = u.phonetics ∧ t.sampa = u.sampa) →
      compare_results t.toDict u.toDict =
        Except.ok [("phonology", SectionDiff.fieldDiffs
          [("words", t.phonology.words, u.phonology.words)])]) := by
  refine ⟨?_, ?_, ?_, ?_⟩
  · rintro ⟨hw, hs, hp, hsam⟩
    simp [compare_results, compareGo, compareFields, dictGet, sectionNames, fieldKeys,
      TranscriptionValue.toDict, SectionResult.toDict, List.lookup, hw, hp, hsam, hs]
  · rintro ⟨hph, hw, hs, hsam⟩
    simp [compare_results, compareGo, compareFields, dictGet, sectionNames, fieldKeys,
      TranscriptionValue.toDict, SectionResult.toDict, List.lookup, hph, hw, hsam, hs]
  · rintro ⟨hph, hp, hw, hs⟩
    simp [compare_results, compareGo, compareFields, dictGet, sectionNames, fieldKeys,
      TranscriptionValue.toDict, SectionResult.toDict, List.lookup, hph, hp, hw, hs]
  · rintro ⟨hw, -, hs, hp, hsam⟩
    simp [compare_results, compareGo, compareFields, dictGet, sectionNames, fieldKeys,
      TranscriptionValue.toDict, SectionResult.toDict, List.lookup, hw, hs, hp, hsam]

/-- C4, witness: a single-section syllables difference at a concrete
input yields exactly that record, and a reordered words sequence (same
elements) registers as exactly a words difference. -/
theorem claim4_witness :
    compare_results
      (TranscriptionValue.toDict ⟨⟨["ola"], ["o", "la"]⟩, ⟨["b"], ["b"]⟩, ⟨["c"], ["c"]⟩⟩)
      (TranscriptionValue.toDict ⟨⟨["ola"], ["o", "la", "s"]⟩, ⟨["b"], ["b"]⟩, ⟨["c"], ["c"]⟩⟩) =
      Except.ok [("phonology", SectionDiff.fieldDiffs
        [("syllables", ["o", "la"], ["o", "la", "s"])])] ∧
    compare_results
      (TranscriptionValue.toDict ⟨⟨["o", "la"], ["x"]⟩, ⟨["b"], ["b"]⟩, ⟨["c"], ["c"]⟩⟩)
      (TranscriptionValue.toDict ⟨⟨["la", "o"], ["x"]⟩, ⟨["b"], ["b"]⟩, ⟨["c"], ["c"]⟩⟩) =
      Except.ok [("phonology", SectionDiff.fieldDiffs
        [("words", ["o", "la"], ["la", "o"])])] :=
  ⟨(claim4_diff_sensitivity
      ⟨⟨["ola"], ["o", "la"]⟩, ⟨["b"], ["b"]⟩, ⟨["c"], ["c"]⟩⟩
      ⟨⟨["ola"], ["o", "la", "s"]⟩, ⟨["b"], ["b"]⟩, ⟨["c"], ["c"]⟩⟩).1
      ⟨rfl, by decide, rfl, rfl⟩,
   (claim4_diff_sensitivity
      ⟨⟨["o", "la"], ["x"]⟩, ⟨["b"], ["b"]⟩, ⟨["c"], ["c"]⟩⟩
      ⟨⟨["la", "o"], ["x"]⟩, ⟨["b"], ["b"]⟩, ⟨["c"], ["c"]⟩⟩).2.2.2
      ⟨by decide, by decide, rfl, rfl, rfl⟩⟩

/-- C1, witness for the amended claim at a concrete input. -/
theorem claim1_witness :
    compare_results sampleValue2.toDict sampleValue2.toDict = Except.ok [] ∧
    entryOutcome (fun _ => Except.ok sampleValue2)
      (GoldenEntry.success "Hola." sampleValue2.toDict) = Outcome.passed :=
  ⟨(claim1_amended sampleValue2 sampleValue2 rfl rfl rfl rfl rfl rfl).1,
   (claim1_amended sampleValue2 sampleValue2 rfl rfl rfl rfl rfl rfl).2
     (fun _ => Except.ok sampleValue2) "Hola." rfl⟩

/-- C9, counterexample to the claim as stated: with all three sections
absent from `expected` (and also from `actual`), `compare_results` does
not raise a `KeyError` — the guard for `actual` runs first and reports
three section-missing records instead. -/
theorem claim9_counterexample :
    compare_results [] [] =
      Except.ok [("phonology", SectionDiff.missingSec "Section missing in actual output"),
                 ("phonetics", SectionDiff.missingSec "Section missing in actual output"),
                 ("sampa", SectionDiff.missingSec "Section missing in actual output")] := by
  decide

/-- Helper: the field loop succeeds exactly when both section dicts
contain both field keys. -/
theorem compareFields_isOkB (expSec actualSec : SectionData) :
    isOkB (compareFields expSec actualSec fieldKeys) = true ↔
      ((expSec.lookup "words").isSome ∧ (expSec.lookup "syllables").isSome ∧
       (actualSec.lookup "words").isSome ∧ (actualSec.lookup "syllables").isSome) := by
  cases h1 : expSec.lookup "words" <;>
  cases h2 : expSec.lookup "syllables" <;>
  cases h3 : actualSec.lookup "words" <;>
  cases h4 : actualSec.lookup "syllables" <;>
  simp [compareFields, fieldKeys, dictGet, h1, h2, h3, h4, isOkB] <;>
  split_ifs <;>
  simp [isOkB]

/-- Helper: the section loop succeeds exactly when every listed section
is well-formed relative to what it dereferences. -/
theorem compareGo_isOkB (expected actual : TranscriptionDict) (l : List String) :
    isOkB (compareGo expected actual l) = true ↔
      ∀ s ∈ l, sectionOK expected actual s := by
  induction l with
  | nil => simp [compareGo, isOkB]
  | cons s ss ih =>
    cases ha : actual.lookup s with
    | none =>
      have hs : sectionOK expected actual s := by
        intro secA hA
        rw [ha] at hA
        exact Option.noConfusion hA
      have hstep : isOkB (compareGo expected actual (s :: ss)) =
          isOkB (compareGo expected actual ss) := by
        simp only [compareGo, ha]
        cases compareGo expected actual ss <;> rfl
      rw [hstep]
      simp [ih, List.forall_mem_cons, hs]
    | some secA =>
      cases he : expected.lookup s with
      | none =>
        have hns : ¬ sectionOK expected actual s := by
          intro hsec
          obtain ⟨secE, hE, -⟩ := hsec secA ha
          rw [he] at hE
          exact Option.noConfusion hE
        have hstep : isOkB (compareGo expected actual (s :: ss)) = false := by
          simp [compareGo, ha, dictGet, he, isOkB]
        rw [hstep]
        simp [List.forall_mem_cons, hns]
      | some secE =>
        cases hcf : compareFields secE secA fieldKeys with
        | error msg =>
          have hfb : isOkB (compareFields secE secA fieldKeys) = false := by
            rw [hcf]; rfl
          have hns : ¬ sectionOK expected actual s := by
            intro hsec
            obtain ⟨secE2, hE2, hw, hsy, haw, hasy⟩ := hsec secA ha
            rw [he] at hE2
            obtain rfl := Option.some.inj hE2
            have hok : isOkB (compareFields secE secA fieldKeys) = true :=
              (compareFields_isOkB secE secA).mpr ⟨hw, hsy, haw, hasy⟩
            rw [hfb] at hok
            exact Bool.noConfusion hok
          have hstep : isOkB (compareGo expected actual (s :: ss)) = false := by
            simp [compareGo, ha, dictGet, he, hcf, isOkB]
          rw [hstep]
          simp [List.forall_mem_cons, hns]
        | ok fds =>
          have hok : isOkB (compareFields secE secA fieldKeys) = true := by
            rw [hcf]; rfl
          obtain ⟨hw, hsy, haw, hasy⟩ := (compareFields_isOkB secE secA).mp hok
          have hs : sectionOK expected actual s := by
            intro secA2 hA2
            rw [ha] at hA2
            obtain rfl := Option.some.inj hA2
            exact ⟨secE, he, hw, hsy, haw, hasy⟩
          have hstep : isOkB (compareGo expected actual (s :: ss)) =
              isOkB (compareGo expected actual ss) := by
            simp only [compareGo, ha, dictGet, he, hcf]
            cases compareGo expected actual ss <;> simp [isOkB] <;> split_ifs <;>
              simp [isOkB]
          rw [hstep]
          simp [ih, List.forall_mem_cons, hs]

/-- C9, amended: the guard covers only sections absent from `actual`
(they are reported as section-missing records and never raise, even if
also absent from `expected`); `compare_results` raises a `KeyError`
exactly when some section that is present in `actual` is absent from
`expected`, or a present section dict on either side lacks the `words`
or `syllables` key. -/
theorem claim9_amended (expected actual : TranscriptionDict) :
    (∃ k, compare_results expected actual = Except.error k) ↔
      ¬ ∀ s ∈ sectionNames, sectionOK expected actual s := by
  have h := compareGo_isOkB expected actual sectionNames
  unfold compare_results
  cases hc : compareGo expected actual sectionNames with
  | error e =>
    rw [hc] at h
    simp [isOkB] at h
    simp [h]
  | ok d =>
    rw [hc] at h
    simp [isOkB] at h
    constructor
    · rintro ⟨k, hk⟩
      exact Except.noConfusion hk
    · intro hn
      exact (hn h).elim

/-- C9, witness: a section present in `actual` but absent from
`expected` makes `compare_results` raise a `KeyError`. -/
theorem claim9_witness :
    ∃ k, compare_results [] sampleValue.toDict = Except.error k := by
  apply (claim9_amended [] sampleValue.toDict).mpr
  intro hall
  obtain ⟨secE, hE, -⟩ := hall "phonology" (by simp [sectionNames])
    sampleValue.phonology.toDict (by decide)
  exact Option.noConfusion hE

/-- Helper: the field loop reads the actual section dict only through
its lookups at the listed keys. -/
theorem compareFields_view_congr (expSec a1 a2 : SectionData) (ks : List String)
    (h : ∀ k ∈ ks, a1.lookup k = a2.lookup k) :
    compareFields expSec a1 ks = compareFields expSec a2 ks := by
  induction ks with
  | nil => rfl
  | cons k ks ih =>
    have hk : a1.lookup k = a2.lookup k := h k (by simp)
    have hrest := ih (fun k2 hk2 => h k2 (by simp [hk2]))
    simp only [compareFields, dictGet, hk, hrest]

/-- Helper: the section loop reads `actual` only through the per-section
view (presence, and the two field lookups). -/
theorem compareGo_view_congr (expected a1 a2 : TranscriptionDict) (l : List String)
    (h : ∀ s ∈ l, actualView a1 s = actualView a2 s) :
    compareGo expected a1 l = compareGo expected a2 l := by
  induction l with
  | nil => rfl
  | cons s ss ih =>
    have hs : actualView a1 s = actualView a2 s := h s (by simp)
    have hrest := ih (fun s2 hs2 => h s2 (by simp [hs2]))
    cases h1 : a1.lookup s with
    | none =>
      have h2 : a2.lookup s = none := by
        unfold actualView at hs
        rw [h1] at hs
        exact (Option.map_eq_none.mp hs.symm)
      simp only [compareGo, h1, h2, hrest]
    | some sec1 =>
      obtain ⟨sec2, h2, hvw, hvs⟩ : ∃ sec2, a2.lookup s = some sec2 ∧
          sec1.lookup "words" = sec2.lookup "words" ∧
          sec1.lookup "syllables" = sec2.lookup "syllables" := by
        unfold actualView at hs
        rw [h1] at hs
        cases h2 : a2.lookup s with
        | none => rw [h2] at hs; simp at hs
        | some sec2 =>
          rw [h2] at hs
          simp at hs
          exact ⟨sec2, rfl, hs.1, hs.2⟩
      have hfields : ∀ expSec, compareFields expSec sec1 fieldKeys =
          compareFields expSec sec2 fieldKeys := by
        intro expSec
        apply compareFields_view_congr
        intro k hk
        simp only [fieldKeys, List.mem_cons, List.mem_singleton] at hk
        rcases hk with rfl | rfl | c
        · exact hvw
        · exact hvs
        · exact absurd c (List.not_mem_nil k)
      simp only [compareGo, h1, h2, hrest, hfields]

/-- C10: noninterference — the result of `compare_results` depends on
`actual` only through the three fixed sections' presence and their
`words`/`syllables` values; two actuals agreeing on that view give
equal results against any expected, so extra sections or extra fields
in `actual` can never produce a reported difference. -/
theorem claim10_noninterference (expected a1 a2 : TranscriptionDict)
    (h : ∀ s ∈ sectionNames, actualView a1 s = actualView a2 s) :
    compare_results expected a1 = compare_results expected a2 := by
  unfold compare_results
  exact compareGo_view_congr expected a1 a2 sectionNames h

/-- C10, witness: an actual with an extra per-section field and an
extra section compares identically to the plain one. -/
theorem claim10_witness :
    compare_results sampleValue2.toDict
      [("phonology", [("words", ["kasa"]), ("syllables", ["ka", "sa"]), ("stress", ["1"])]),
       ("phonetics", [("words", ["kasa"]), ("syllables", ["ka", "sa"])]),
       ("sampa", [("words", ["kasa"]), ("syllables", ["ka", "sa"])]),
       ("extra", [("words", ["x"])])] =
    compare_results sampleValue2.toDict sampleValue2.toDict :=
  claim10_noninterference sampleValue2.toDict
    [("phonology", [("words", ["kasa"]), ("syllables", ["ka", "sa"]), ("stress", ["1"])]),
     ("phonetics", [("words", ["kasa"]), ("syllables", ["ka", "sa"])]),
     ("sampa", [("words", ["kasa"]), ("syllables", ["ka", "sa"])]),
     ("extra", [("words", ["x"])])]
    sampleValue2.toDict (by decide)

end Fonemas
